import Mathlib

/-!
Shallow embedding of the rule-matching engine of `src/cov.ts` (covreport).

The engine decides, given the list of changed file paths of a pull request
and a rule set (label → list of match conditions, label → command string),
which commands are triggered.  Glob matching is delegated to the external
`minimatch` library: `new Minimatch(pattern).match(file)`.  We abstract that
collaborator as a parameter `mm : String → String → Bool` (pattern → file →
matches?).  `litGlob` below instantiates it with literal globs (a pattern
with no wildcard characters matches exactly itself under minimatch), which
is enough for every concrete evaluation in this file.
-/

namespace CovReport

/-- `interface MatchConfig { all?: string[]; any?: string[] }` from cov.ts.
An absent optional field is `none`. -/
structure MatchConfig where
  all : Option (List String)
  any : Option (List String)
deriving DecidableEq, Repr

/-- Matching relation of literal glob patterns: a minimatch pattern without
wildcard characters matches exactly the path equal to its own text.  Used to
instantiate the abstract matcher parameter `mm` on concrete inputs. -/
def litGlob (pat file : String) : Bool :=
  pat == file

/-- `checkMatch(changedFiles, matchConfig)` from cov.ts (lines 161–181).

If `all` is present the code builds one matcher per pattern and returns
`allMatcher.every(matcher => changedFiles.some(file => matcher.match(file)))`,
returning early (the `any` field is never consulted in that case).  Otherwise,
if `any` is present it returns
`anyMatcher.some(matcher => changedFiles.some(file => matcher.match(file)))`.
With neither field present it returns `true`. -/
def checkMatch (mm : String → String → Bool) (changedFiles : List String)
    (matchConfig : MatchConfig) : Bool :=
  match matchConfig.all with
  | some allPats =>
      (allPats.map mm).all (fun matcher => changedFiles.any (fun file => matcher file))
  | none =>
      match matchConfig.any with
      | some anyPats =>
          (anyPats.map mm).any (fun matcher => changedFiles.any (fun file => matcher file))
      | none => true

/-- `checkPattern(changedFiles, configs)` from cov.ts (lines 183–194): loops
over the conditions and returns `true` at the first one whose `checkMatch`
passes, `false` if none does. -/
def checkPattern (mm : String → String → Bool) (changedFiles : List String)
    (configs : List MatchConfig) : Bool :=
  configs.any (fun config => checkMatch mm changedFiles config)

/-- JavaScript property access `obj[key]` on a plain object, modelled as
lookup in an association list (object insertion order): `undefined` on a
missing key becomes `none`. -/
def assocLookup (key : String) : List (String × α) → Option α
  | [] => none
  | (k, v) :: rest => if k == key then some v else assocLookup key rest

/-- `Set.add` of a JavaScript `Set<string>`: insertion order is kept and
adding an element already present is a no-op. -/
def setAdd (s : List String) (x : String) : List String :=
  if x ∈ s then s else s ++ [x]

/-- The per-label loop of `run` in cov.ts (lines 239–249), parametrised by
the accumulated `exeCommands` set.  For each `(key, command)` entry of the
`commands` mapping the code reads `matchers[key]` and calls
`checkPattern(changedFiles, matcherConfig)`; when the key has no matcher
entry, `matcherConfig` is `undefined` and `checkPattern`'s `for…of` throws a
`TypeError`, which aborts the whole evaluation (modelled as `Except.error`
carrying the thrown message; the accumulated set is discarded). -/
def evalCommandsGo (mm : String → String → Bool) (changedFiles : List String)
    (matchers : List (String × List MatchConfig)) :
    List (String × String) → List String → Except String (List String)
  | [], exeCommands => Except.ok exeCommands
  | (key, command) :: rest, exeCommands =>
      match assocLookup key matchers with
      | none =>
          Except.error ("TypeError: matchers[" ++ key ++ "] is not iterable")
      | some matcherConfig =>
          if checkPattern mm changedFiles matcherConfig then
            evalCommandsGo mm changedFiles matchers rest (setAdd exeCommands command)
          else
            evalCommandsGo mm changedFiles matchers rest exeCommands

/-- One evaluation of `run`'s inner loop for one pull request: the triggered
command set built from an initially empty `Set<string>`. -/
def evalCommands (mm : String → String → Bool) (changedFiles : List String)
    (matchers : List (String × List MatchConfig))
    (commands : List (String × String)) : Except String (List String) :=
  evalCommandsGo mm changedFiles matchers commands []

/-- JavaScript `Boolean` rendered into a template literal. -/
def jsBool : Bool → String
  | true => "true"
  | false => "false"

/-- `JSON.stringify` of a string array. -/
def jsonArr (xs : List String) : String :=
  "[" ++ String.intercalate "," (xs.map (fun s => "\"" ++ s ++ "\"")) ++ "]"

/-- `JSON.stringify` of a `MatchConfig` object (fields in declaration
order, absent optional fields omitted). -/
def jsonMatchConfig (c : MatchConfig) : String :=
  let fields :=
    (match c.all with
     | some xs => ["\"all\":" ++ jsonArr xs]
     | none => []) ++
    (match c.any with
     | some xs => ["\"any\":" ++ jsonArr xs]
     | none => [])
  "\x7b" ++ String.intercalate "," fields ++ "\x7d"

/-- `checkMatch` with its `core.info` diagnostic output made explicit: the
log of emitted lines is threaded through and the line
`Result for the Match [All|Any] ${result}` is appended exactly as the code
prints it. -/
def checkMatchLog (mm : String → String → Bool) (changedFiles : List String)
    (matchConfig : MatchConfig) (log : List String) : Bool × List String :=
  match matchConfig.all with
  | some allPats =>
      let result :=
        (allPats.map mm).all (fun matcher => changedFiles.any (fun file => matcher file))
      (result, log ++ ["Result for the Match [All] " ++ jsBool result])
  | none =>
      match matchConfig.any with
      | some anyPats =>
          let result :=
            (anyPats.map mm).any (fun matcher => changedFiles.any (fun file => matcher file))
          (result, log ++ ["Result for the Match [Any] " ++ jsBool result])
      | none => (true, log)

/-- `checkPattern` with its `core.info` output made explicit: before each
condition is tried the line ` checking pattern ${JSON.stringify(config)}`
is appended, then `checkMatch` runs (appending its own line), with the same
early return as the code. -/
def checkPatternLog (mm : String → String → Bool) (changedFiles : List String) :
    List MatchConfig → List String → Bool × List String
  | [], log => (false, log)
  | config :: rest, log =>
      let log1 := log ++ [" checking pattern " ++ jsonMatchConfig config]
      let r := checkMatchLog mm changedFiles config log1
      if r.1 then (true, r.2) else checkPatternLog mm changedFiles rest r.2

/-- The per-label loop of `run` with its `core.info` output made explicit:
` checking pattern ${key}` is logged before each label's conditions are
evaluated.  Same result as `evalCommandsGo`, plus the log. -/
def evalCommandsLogGo (mm : String → String → Bool) (changedFiles : List String)
    (matchers : List (String × List MatchConfig)) :
    List (String × String) → List String → List String →
      Except String (List String) × List String
  | [], exeCommands, log => (Except.ok exeCommands, log)
  | (key, command) :: rest, exeCommands, log =>
      let log1 := log ++ [" checking pattern " ++ key]
      match assocLookup key matchers with
      | none =>
          (Except.error ("TypeError: matchers[" ++ key ++ "] is not iterable"), log1)
      | some matcherConfig =>
          let r := checkPatternLog mm changedFiles matcherConfig log1
          if r.1 then
            evalCommandsLogGo mm changedFiles matchers rest (setAdd exeCommands command) r.2
          else
            evalCommandsLogGo mm changedFiles matchers rest exeCommands r.2

/-- One evaluation of `run`'s inner loop with the diagnostic log threaded
through, starting from the given log state. -/
def evalCommandsLog (mm : String → String → Bool) (changedFiles : List String)
    (matchers : List (String × List MatchConfig))
    (commands : List (String × String)) (log : List String) :
    Except String (List String) × List String :=
  evalCommandsLogGo mm changedFiles matchers commands [] log

/-- The untyped value `yaml.load` hands to `getConfig`: a YAML/JSON-like
document (strings, arrays, string-keyed objects, other scalars). -/
inductive Yaml where
  | str : String → Yaml
  | arr : List Yaml → Yaml
  | obj : List (String × Yaml) → Yaml
  | num : Int → Yaml
  | null : Yaml

/-- JavaScript property access `configObject["k"]` on the loaded document:
`none` models `undefined`. -/
def Yaml.get (y : Yaml) (key : String) : Option Yaml :=
  match y with
  | .obj entries => assocLookup key entries
  | _ => none

/-- JavaScript `for…in` enumeration of an own-property object: its entries
in insertion order; `for…in` over `undefined` or a non-object scalar
iterates zero times. -/
def forInEntries : Option Yaml → List (String × Yaml)
  | some (.obj entries) => entries
  | _ => []

/-- `Map.prototype.set`: overwrite in place when the key exists, append
otherwise. -/
def mapSet (m : List (String × α)) (key : String) (v : α) : List (String × α) :=
  if m.any (fun p => p.1 == key) then
    m.map (fun p => if p.1 == key then (p.1, v) else p)
  else
    m ++ [(key, v)]

/-- `interface TestConfig` from cov.ts: `matchers: Map<string, MatchConfig[]>`
and `commands: Map<string, string>`.  The code stores the raw YAML arrays in
`matchers` without converting them (an unchecked cast), so the values here
stay `List Yaml`. -/
structure TestConfig where
  matchers : List (String × List Yaml)
  commands : List (String × String)

/-- The first loop of `getConfig` (cov.ts lines 359–367): each entry of
`givenMatchers` must be an `Array`, else
`Error: found unexpected type for label ${label} (should be string or array of globs)`
is thrown. -/
def getConfigMatchersLoop (acc : List (String × List Yaml)) :
    List (String × Yaml) → Except String (List (String × List Yaml))
  | [] => Except.ok acc
  | (label, v) :: rest =>
      match v with
      | .arr xs => getConfigMatchersLoop (mapSet acc label xs) rest
      | _ =>
          Except.error
            ("found unexpected type for label " ++ label ++
              " (should be string or array of globs)")

/-- The second loop of `getConfig` (cov.ts lines 368–376): each entry of
`givenCommands` must be a string, else the same `Error` is thrown. -/
def getConfigCommandsLoop (acc : List (String × String)) :
    List (String × Yaml) → Except String (List (String × String))
  | [] => Except.ok acc
  | (command, v) :: rest =>
      match v with
      | .str s => getConfigCommandsLoop (mapSet acc command s) rest
      | _ =>
          Except.error
            ("found unexpected type for label " ++ command ++
              " (should be string or array of globs)")

/-- `getConfig(configObject)` from cov.ts (lines 347–379).  Note the source
reads the `"matchers"` key for BOTH mappings:
`const givenMatchers = configObject["matchers"]` and
`const givenCommands = configObject["matchers"]`, so the commands loop runs
over the matcher entries. -/
def getConfig (configObject : Yaml) : Except String TestConfig := do
  let givenMatchers := forInEntries (configObject.get "matchers")
  let givenCommands := forInEntries (configObject.get "matchers")
  let matchers ← getConfigMatchersLoop [] givenMatchers
  let commands ← getConfigCommandsLoop [] givenCommands
  return { matchers := matchers, commands := commands }

/-- A well-formed configuration document: one label `backend` whose matcher
entry is a pattern array and whose command entry is a string. -/
def validConfigExample : Yaml :=
  .obj
    [("matchers", .obj [("backend", .arr [.str "src"])]),
     ("commands", .obj [("backend", .str "npm test")])]

theorem evalCommandsGo_error_of_missing (mm : String → String → Bool)
    (changedFiles : List String) (matchers : List (String × List MatchConfig))
    (key command : String) :
    ∀ (commands : List (String × String)) (acc : List String),
      (key, command) ∈ commands → assocLookup key matchers = none →
      ∃ msg, evalCommandsGo mm changedFiles matchers commands acc =
        Except.error msg := by
  intro commands
  induction commands with
  | nil => intro acc h; cases h
  | cons hd tl ih =>
      intro acc hmem hmiss
      obtain ⟨k, c⟩ := hd
      rcases List.mem_cons.mp hmem with heq | htl
      · obtain ⟨hk, hc⟩ := Prod.mk.injEq .. ▸ heq
        subst hk
        simp only [evalCommandsGo, hmiss]
        exact ⟨_, rfl⟩
      · simp only [evalCommandsGo]
        cases hlk : assocLookup k matchers with
        | none => exact ⟨_, rfl⟩
        | some cfgs =>
            by_cases hcp : checkPattern mm changedFiles cfgs
            · simpa [hlk, hcp] using ih (setAdd acc c) htl hmiss
            · simpa [hlk, hcp] using ih acc htl hmiss

theorem evalCommandsGo_mem_mono (mm : String → String → Bool)
    (changedFiles : List String) (matchers : List (String × List MatchConfig))
    (c : String) :
    ∀ (commands : List (String × String)) (acc result : List String),
      c ∈ acc →
      evalCommandsGo mm changedFiles matchers commands acc = Except.ok result →
      c ∈ result := by
  intro commands
  induction commands with
  | nil =>
      intro acc result hc hok
      simp only [evalCommandsGo, Except.ok.injEq] at hok
      exact hok ▸ hc
  | cons hd tl ih =>
      intro acc result hc hok
      obtain ⟨k, cmd⟩ := hd
      simp only [evalCommandsGo] at hok
      split at hok
      · simp at hok
      · split at hok
        · refine ih (setAdd acc cmd) result ?_ hok
          unfold setAdd
          split
          · exact hc
          · exact List.mem_append_left _ hc
        · exact ih acc result hc hok

theorem evalCommandsGo_mem_of_match (mm : String → String → Bool)
    (changedFiles : List String) (matchers : List (String × List MatchConfig))
    (key command : String) (cfgs : List MatchConfig) :
    ∀ (commands : List (String × String)) (acc result : List String),
      (key, command) ∈ commands →
      assocLookup key matchers = some cfgs →
      checkPattern mm changedFiles cfgs = true →
      evalCommandsGo mm changedFiles matchers commands acc = Except.ok result →
      command ∈ result := by
  intro commands
  induction commands with
  | nil => intro acc result h; cases h
  | cons hd tl ih =>
      intro acc result hmem hlk hcp hok
      obtain ⟨k, c⟩ := hd
      simp only [evalCommandsGo] at hok
      rcases List.mem_cons.mp hmem with heq | htl
      · obtain ⟨hk, hc⟩ := Prod.mk.injEq .. ▸ heq
        subst hk; subst hc
        split at hok
        · next hn => rw [hlk] at hn; cases hn
        · next mc hsome =>
            rw [hlk] at hsome
            obtain rfl : mc = cfgs := (Option.some.injEq .. ▸ hsome).symm
            rw [if_pos hcp] at hok
            refine evalCommandsGo_mem_mono mm changedFiles matchers command
              tl (setAdd acc command) result ?_ hok
            unfold setAdd
            split
            · assumption
            · exact List.mem_append_right _ (List.mem_singleton.mpr rfl)
      · split at hok
        · simp at hok
        · split at hok
          · exact ih (setAdd acc c) result htl hlk hcp hok
          · exact ih acc result htl hlk hcp hok

theorem setAdd_nodup (s : List String) (x : String) (h : s.Nodup) :
    (setAdd s x).Nodup := by
  unfold setAdd
  split
  · exact h
  · next hx =>
      refine List.Nodup.append h (List.nodup_singleton x) ?_
      intro a ha hax
      exact hx (List.mem_singleton.mp hax ▸ ha)

theorem evalCommandsGo_nodup (mm : String → String → Bool)
    (changedFiles : List String) (matchers : List (String × List MatchConfig)) :
    ∀ (commands : List (String × String)) (acc result : List String),
      acc.Nodup →
      evalCommandsGo mm changedFiles matchers commands acc = Except.ok result →
      result.Nodup := by
  intro commands
  induction commands with
  | nil =>
      intro acc result hacc hok
      simp only [evalCommandsGo, Except.ok.injEq] at hok
      exact hok ▸ hacc
  | cons hd tl ih =>
      intro acc result hacc hok
      obtain ⟨k, c⟩ := hd
      simp only [evalCommandsGo] at hok
      split at hok
      · simp at hok
      · split at hok
        · exact ih (setAdd acc c) result (setAdd_nodup acc c hacc) hok
        · exact ih acc result hacc hok

theorem checkMatchLog_fst (mm : String → String → Bool) (changedFiles : List String)
    (matchConfig : MatchConfig) (log : List String) :
    (checkMatchLog mm changedFiles matchConfig log).1 =
      checkMatch mm changedFiles matchConfig := by
  rcases matchConfig with ⟨a, y⟩
  cases a with
  | some pats => rfl
  | none => cases y <;> rfl

theorem checkPatternLog_fst (mm : String → String → Bool) (changedFiles : List String) :
    ∀ (configs : List MatchConfig) (log : List String),
      (checkPatternLog mm changedFiles configs log).1 =
        checkPattern mm changedFiles configs := by
  intro configs
  induction configs with
  | nil => intro log; rfl
  | cons c rest ih =>
      intro log
      simp only [checkPatternLog, checkPattern, List.any_cons]
      split
      · next h =>
          rw [checkMatchLog_fst] at h
          simp [h]
      · next h =>
          rw [checkMatchLog_fst] at h
          simp only [Bool.not_eq_true] at h
          rw [ih]
          simp [h, checkPattern]

theorem evalCommandsLogGo_fst (mm : String → String → Bool)
    (changedFiles : List String) (matchers : List (String × List MatchConfig)) :
    ∀ (commands : List (String × String)) (acc log : List String),
      (evalCommandsLogGo mm changedFiles matchers commands acc log).1 =
        evalCommandsGo mm changedFiles matchers commands acc := by
  intro commands
  induction commands with
  | nil => intro acc log; rfl
  | cons hd tl ih =>
      intro acc log
      obtain ⟨k, c⟩ := hd
      simp only [evalCommandsLogGo, evalCommandsGo]
      cases assocLookup k matchers with
      | none => rfl
      | some cfgs =>
          simp only []
          split
          · next h =>
              rw [checkPatternLog_fst] at h
              rw [if_pos h]
              exact ih (setAdd acc c) _
          · next h =>
              rw [checkPatternLog_fst] at h
              simp only [Bool.not_eq_true] at h
              rw [if_neg (by simp [h])]
              exact ih acc _

/-- C1 -- counterexample.  With `changedFiles = ["a", "b"]` and
`all = ["a"]`, the code returns `true` although the file `"b"` fails the
pattern `"a"`: `checkMatch` does not require every changed file to match. -/
theorem checkMatch_all_not_universal_over_files :
    checkMatch litGlob ["a", "b"] ⟨some ["a"], none⟩ = true ∧
    ¬ (∀ f ∈ ["a", "b"], ∀ p ∈ ["a"], litGlob p f = true) := by
  decide

/-- C1 (amended) -- with only `all` present, `checkMatch` returns `true` iff
every pattern in `all` is matched by at least one changed file (an
existential over the changeset per pattern, not a universal over files). -/
theorem checkMatch_all_iff (mm : String → String → Bool)
    (changedFiles pats : List String) :
    checkMatch mm changedFiles ⟨some pats, none⟩ = true ↔
      ∀ p ∈ pats, ∃ f ∈ changedFiles, mm p f = true := by
  simp [checkMatch, List.all_eq_true, List.any_eq_true]

/-- C2 -- counterexample.  With `changedFiles = ["a"]` and
`any = ["a", "b"]`, the code returns `true` although no single changed file
matches every pattern of the `any` group simultaneously. -/
theorem checkMatch_any_not_single_file :
    checkMatch litGlob ["a"] ⟨none, some ["a", "b"]⟩ = true ∧
    ¬ (∃ f ∈ ["a"], ∀ p ∈ ["a", "b"], litGlob p f = true) := by
  decide

/-- C2 (amended) -- with only `any` present, `checkMatch` returns `true` iff
some pattern in `any` matches some changed file; on an empty changeset the
condition fails. -/
theorem checkMatch_any_iff (mm : String → String → Bool)
    (changedFiles pats : List String) :
    (checkMatch mm changedFiles ⟨none, some pats⟩ = true ↔
      ∃ p ∈ pats, ∃ f ∈ changedFiles, mm p f = true) ∧
    checkMatch mm [] ⟨none, some pats⟩ = false := by
  constructor
  · simp [checkMatch, List.any_eq_true]
  · simp [checkMatch, List.any_eq_true]

/-- C3 -- counterexample.  With `changedFiles = ["a"]`, `all = ["a"]` and
`any = ["b"]`, the code returns `true` while the conjunction of the two
clause results is `false`: when `all` is present the `any` clause is
ignored. -/
theorem checkMatch_both_ignores_any :
    checkMatch litGlob ["a"] ⟨some ["a"], some ["b"]⟩ = true ∧
    (checkMatch litGlob ["a"] ⟨some ["a"], none⟩ &&
      checkMatch litGlob ["a"] ⟨none, some ["b"]⟩) = false := by
  decide

/-- C3 (amended) -- when both `all` and `any` are present, `checkMatch`
returns exactly the `all` clause's result; the `any` field is ignored
because of the early return. -/
theorem checkMatch_both_eq_all (mm : String → String → Bool)
    (changedFiles allPats anyPats : List String) :
    checkMatch mm changedFiles ⟨some allPats, some anyPats⟩ =
      checkMatch mm changedFiles ⟨some allPats, none⟩ := rfl

/-- C4 -- `checkPattern` is the disjunction over the condition list: it
returns `true` iff at least one condition passes `checkMatch`. -/
theorem checkPattern_iff_exists (mm : String → String → Bool)
    (changedFiles : List String) (configs : List MatchConfig) :
    checkPattern mm changedFiles configs = true ↔
      ∃ cond ∈ configs, checkMatch mm changedFiles cond = true := by
  simp [checkPattern, List.any_eq_true]

/-- C5 -- an empty condition list never matches, and the empty condition
`{}` (neither `all` nor `any`) always passes, so a list containing it always
matches. -/
theorem checkPattern_empty_cases (mm : String → String → Bool)
    (changedFiles : List String) :
    checkPattern mm changedFiles [] = false ∧
    checkMatch mm changedFiles ⟨none, none⟩ = true ∧
    checkPattern mm changedFiles [⟨none, none⟩] = true := by
  exact ⟨rfl, rfl, rfl⟩

/-- C6 -- when the `commands` mapping contains a label with no entry in the
`matchers` mapping, the evaluation of `run`'s per-label loop ends in a
thrown error (the `TypeError` from iterating `undefined`, the configuration
error of the spec) and no triggered-command set is produced: the error
value carries no partial set. -/
theorem run_missing_matcher_raises (mm : String → String → Bool)
    (changedFiles : List String) (matchers : List (String × List MatchConfig))
    (commands : List (String × String)) (key command : String)
    (hmem : (key, command) ∈ commands)
    (hmiss : assocLookup key matchers = none) :
    ∃ msg, evalCommands mm changedFiles matchers commands = Except.error msg :=
  evalCommandsGo_error_of_missing mm changedFiles matchers key command
    commands [] hmem hmiss

/-- C6 -- witness: a single label `ts` with a command but no matcher entry
makes the evaluation error out. -/
theorem run_missing_matcher_raises_witness :
    ("ts", "run-ts") ∈ [("ts", "run-ts")] ∧
    assocLookup "ts" ([] : List (String × List MatchConfig)) = none ∧
    ∃ msg, evalCommands litGlob ["a"] [] [("ts", "run-ts")] =
      Except.error msg :=
  ⟨List.mem_singleton.mpr rfl, rfl,
    run_missing_matcher_raises litGlob ["a"] [] [("ts", "run-ts")] "ts" "run-ts"
      (List.mem_singleton.mpr rfl) rfl⟩

/-- C7 -- the triggered-command collection is a set: whenever some label
`key` with command `command` matches, the successful result contains exactly
one occurrence of `command`, however many matching labels map to it. -/
theorem run_triggered_commands_dedup (mm : String → String → Bool)
    (changedFiles : List String) (matchers : List (String × List MatchConfig))
    (commands : List (String × String)) (key command : String)
    (cfgs : List MatchConfig) (result : List String)
    (hmem : (key, command) ∈ commands)
    (hlk : assocLookup key matchers = some cfgs)
    (hcp : checkPattern mm changedFiles cfgs = true)
    (hok : evalCommands mm changedFiles matchers commands = Except.ok result) :
    List.count command result = 1 := by
  have hin : command ∈ result :=
    evalCommandsGo_mem_of_match mm changedFiles matchers key command cfgs
      commands [] result hmem hlk hcp hok
  have hnd : result.Nodup :=
    evalCommandsGo_nodup mm changedFiles matchers commands [] result
      List.nodup_nil hok
  have h1 : 0 < List.count command result := List.count_pos_iff.mpr hin
  have h2 : List.count command result ≤ 1 :=
    List.nodup_iff_count_le_one.mp hnd command
  omega

/-- C7 -- witness: two distinct labels `a` and `b`, both matching, both
mapped to the command `cmd`; the triggered set is `["cmd"]` and `cmd` is
counted once. -/
theorem run_triggered_commands_dedup_witness :
    ("a", "cmd") ∈ [("a", "cmd"), ("b", "cmd")] ∧
    assocLookup "a"
      [("a", [(⟨none, some ["f"]⟩ : MatchConfig)]), ("b", [⟨none, some ["f"]⟩])] =
      some [⟨none, some ["f"]⟩] ∧
    checkPattern litGlob ["f"] [⟨none, some ["f"]⟩] = true ∧
    evalCommands litGlob ["f"]
      [("a", [⟨none, some ["f"]⟩]), ("b", [⟨none, some ["f"]⟩])]
      [("a", "cmd"), ("b", "cmd")] = Except.ok ["cmd"] ∧
    List.count "cmd" ["cmd"] = 1 :=
  ⟨List.mem_cons_self _ _, rfl, by decide, rfl,
    run_triggered_commands_dedup litGlob ["f"]
      [("a", [⟨none, some ["f"]⟩]), ("b", [⟨none, some ["f"]⟩])]
      [("a", "cmd"), ("b", "cmd")] "a" "cmd" [⟨none, some ["f"]⟩] ["cmd"]
      (List.mem_cons_self _ _) rfl (by decide) rfl⟩

/-- C8 -- evaluation is deterministic and pure: its result is the pure
function `evalCommands` of the inputs alone, it does not depend on the
diagnostic-log state, and re-running the evaluation on the same
`(changedFiles, matchers, commands)` after a first run (log threaded
through) returns the identical triggered-command set.  Inputs are passed
and returned by value; only the log component of the state changes. -/
theorem run_eval_pure_deterministic (mm : String → String → Bool)
    (changedFiles : List String) (matchers : List (String × List MatchConfig))
    (commands : List (String × String)) (log1 log2 : List String) :
    (evalCommandsLog mm changedFiles matchers commands log1).1 =
      evalCommands mm changedFiles matchers commands ∧
    (evalCommandsLog mm changedFiles matchers commands log2).1 =
      (evalCommandsLog mm changedFiles matchers commands log1).1 ∧
    (evalCommandsLog mm changedFiles matchers commands
        (evalCommandsLog mm changedFiles matchers commands log1).2).1 =
      (evalCommandsLog mm changedFiles matchers commands log1).1 := by
  refine ⟨?_, ?_, ?_⟩ <;>
    simp only [evalCommandsLog, evalCommands, evalCommandsLogGo_fst]

/-- C9 -- `getConfig` evaluated on a well-formed configuration (label
`backend`, matcher entry an array, command entry a string) throws
`found unexpected type for label backend (should be string or array of globs)`
instead of returning the populated `TestConfig`: the code reads the
`"matchers"` key when collecting `givenCommands`, so the commands loop sees
the pattern arrays and rejects them. -/
theorem getConfig_rejects_valid_config :
    getConfig validConfigExample =
      Except.error
        "found unexpected type for label backend (should be string or array of globs)" :=
  rfl

theorem checkMatch_monotone (mm : String → String → Bool)
    (changedFiles : List String) (f : String) (cond : MatchConfig)
    (h : checkMatch mm changedFiles cond = true) :
    checkMatch mm (changedFiles ++ [f]) cond = true := by
  rcases cond with ⟨a, y⟩
  cases a with
  | some pats =>
      simp only [checkMatch, List.all_eq_true, List.any_eq_true] at h ⊢
      intro m hm
      obtain ⟨file, hfile, hmf⟩ := h m hm
      exact ⟨file, List.mem_append_left _ hfile, hmf⟩
  | none =>
      cases y with
      | some pats =>
          simp only [checkMatch, List.any_eq_true] at h ⊢
          obtain ⟨m, hm, file, hfile, hmf⟩ := h
          exact ⟨m, hm, file, List.mem_append_left _ hfile, hmf⟩
      | none => rfl

/-- C10 -- matching is monotone in the changeset: if a condition list
matches `changedFiles`, it still matches after any extra file is appended;
adding a changed file can never un-trigger a label. -/
theorem checkPattern_monotone (mm : String → String → Bool)
    (changedFiles : List String) (f : String) (configs : List MatchConfig)
    (h : checkPattern mm changedFiles configs = true) :
    checkPattern mm (changedFiles ++ [f]) configs = true := by
  simp only [checkPattern, List.any_eq_true] at h ⊢
  obtain ⟨cond, hc, hm⟩ := h
  exact ⟨cond, hc, checkMatch_monotone mm changedFiles f cond hm⟩

/-- C10 -- witness: the condition `any = ["a"]` matches `["a"]` and still
matches `["a", "b"]`. -/
theorem checkPattern_monotone_witness :
    checkPattern litGlob ["a"] [⟨none, some ["a"]⟩] = true ∧
    checkPattern litGlob (["a"] ++ ["b"]) [⟨none, some ["a"]⟩] = true :=
  ⟨by decide,
    checkPattern_monotone litGlob ["a"] "b" [⟨none, some ["a"]⟩] (by decide)⟩

end CovReport
